import Mathlib

/-!
Shallow embedding of the request/response pipeline of the eero-go client
(`src/eero/client.go`), together with theorems checking the specification's
claims about it.  Pure functions of the Go source become Lean functions;
the client's mutable fields become an explicit state record threaded
through the operations; machine integers are `Int`/`Nat`; fallible Go
calls return `Option`.  External standard-library behaviour
(`net/url`, `encoding/json`, `net/http/cookiejar`, `io.LimitReader`)
is modelled at the level of detail the claims need, as documented on
each definition.
-/

namespace EeroGo

/-! ## URL model (net/url) -/

/-- The parts of a `net/url.URL` the client code reads: scheme, host and
path.  Query, fragment and userinfo never influence the client's logic
and are elided. -/
structure URL where
  scheme : String
  host : String
  path : String
deriving DecidableEq, Repr

/-- Splits off the text before the first `"://"`: `some (scheme, rest)`
when the separator occurs, `none` otherwise. -/
def splitScheme : List Char → Option (List Char × List Char)
  | [] => none
  | ':' :: '/' :: '/' :: rest => some ([], rest)
  | c :: rest =>
    match splitScheme rest with
    | none => none
    | some (sch, r) => some (c :: sch, r)

/-- Splits an authority-and-path character list at the first `'/'`: the
host comes before it, the path keeps the leading `'/'`. -/
def splitHostPath : List Char → List Char × List Char
  | [] => ([], [])
  | '/' :: rest => ([], '/' :: rest)
  | c :: rest =>
    match splitHostPath rest with
    | (h, p) => (c :: h, p)

/-- Modelled from the Go standard library `url.Parse`, restricted to the
URL shapes the client handles: `scheme://host/path`, protocol-relative
`//host/path`, and scheme-less strings (which Go parses as a bare path,
e.g. `url.Parse("custom")` yields `Path = "custom"` with empty scheme and
host).  Go's parser rejects URLs containing invalid characters; a space
stands in for that error case.  A `"://"` with an empty scheme is a parse
error (`missing protocol scheme`). -/
def parseURL (s : String) : Option URL :=
  let cs := s.toList
  if cs.any (fun c => c = ' ') then none
  else
    match cs with
    | '/' :: '/' :: rest =>
      match splitHostPath rest with
      | (h, p) => some ⟨"", String.mk h, String.mk p⟩
    | _ =>
      match splitScheme cs with
      | none => some ⟨"", "", s⟩
      | some (sch, rest) =>
        if sch = [] then none
        else
          match splitHostPath rest with
          | (h, p) => some ⟨String.mk sch, String.mk h, String.mk p⟩

/-- The directory prefix of a path: everything up to and including the
last `'/'` (empty when the path has no slash). -/
def dirOf (cs : List Char) : List Char :=
  (cs.reverse.dropWhile (fun c => c ≠ '/')).reverse

/-- Modelled from the path merge of `net/url` reference resolution
(RFC 3986 §5.3): an empty reference path keeps the base path, an absolute
reference path replaces it, and a relative one is joined onto the base
path's directory.  Dot-segment normalisation is elided — it never changes
the host, which is all the client's security checks inspect. -/
def mergePath (basePath refPath : String) : String :=
  match refPath.toList with
  | [] => basePath
  | '/' :: _ => refPath
  | _ => String.mk (dirOf basePath.toList ++ refPath.toList)

/-- Modelled from `net/url`'s `URL.ResolveReference`: an absolute
reference (non-empty scheme) replaces the base entirely; a
protocol-relative reference (empty scheme, non-empty host) keeps only the
base scheme; otherwise the base scheme and host are kept and the paths
are merged. -/
def resolveReference (base ref : URL) : URL :=
  if ref.scheme ≠ "" then ref
  else if ref.host ≠ "" then ⟨base.scheme, ref.host, ref.path⟩
  else ⟨base.scheme, base.host, mergePath base.path ref.path⟩

/-! ## Error model (src/eero/errors.go) -/

/-- `APIError` from `errors.go`: HTTP status, application code from the
`meta` envelope, the human-readable message and the server timestamp. -/
structure APIError where
  HTTPStatusCode : Int
  Code : Int
  Message : String
  ServerTime : String
deriving DecidableEq, Repr

/-! ## JSON and envelope model (encoding/json) -/

/-- A JSON value, used for the `data` portion of the response envelope. -/
inductive JValue where
  | null
  | boolean (b : Bool)
  | num (n : Int)
  | str (s : String)
  | arr (xs : List JValue)
  | obj (fields : List (String × JValue))

/-- The shape of a Go target type handed to `json.Unmarshal` for the
`data` payload: a struct, a slice, or a primitive; `tRaw` is
`json.RawMessage`, which accepts any JSON value verbatim. -/
inductive JTarget where
  | tStruct
  | tSlice
  | tString
  | tNumber
  | tBool
  | tRaw
deriving DecidableEq

/-- Modelled from `encoding/json.Unmarshal`'s shape-level behaviour:
JSON `null` is a no-op for every target (never an error); an object
unmarshals into a struct, an array into a slice, a string/number/bool
into the matching primitive; `json.RawMessage` accepts anything; any
other combination is an `UnmarshalTypeError`.  Field-by-field coercion
inside objects and arrays is below the level the claims need and is
elided. -/
def unmarshalOk : JValue → JTarget → Bool
  | _, .tRaw => true
  | .null, _ => true
  | .obj _, .tStruct => true
  | .arr _, .tSlice => true
  | .str _, .tString => true
  | .num _, .tNumber => true
  | .boolean _, .tBool => true
  | _, _ => false

/-- The parsed `meta` object of the eero response envelope, with the
field names of its wire format (`code`, `error`, `server_time`).  Per
`encoding/json`, fields absent from the JSON keep their zero values, so
a body like `{}` parses to `code = 0` with empty strings. -/
structure Meta where
  code : Int
  error : String
  server_time : String
deriving DecidableEq, Repr

/-- A response body that parsed as the envelope: the `meta` object and
the raw `data` value (`none` when the `data` key is absent, in which case
the corresponding `json.RawMessage` is empty). -/
structure Envelope where
  meta : Meta
  data : Option JValue

/-- A response body as the JSON layer sees it: either bytes on which
`json.Unmarshal` of the minimal `meta` envelope fails (kept verbatim, as
`checkError` interpolates them into its message), or the parsed
envelope. -/
inductive Body where
  | unparseable (raw : String)
  | envelope (e : Envelope)

/-! ## Response pipeline (src/eero/client.go) -/

/-- `maxBodyBytes` from `performRequest`: the 5 MiB hard cap on the
response body. -/
def maxBodyBytes : Nat := 5 * 1024 * 1024

/-- `performRequest` (client.go:164-180), modelled on the path where the
transport delivered a response: the body is read through
`io.LimitReader(resp.Body, maxBodyBytes)` and `io.ReadAll`, which
returns exactly the first `maxBodyBytes` bytes and discards the rest,
then the bytes, the HTTP status and a nil error are returned. -/
def performRequest (body : List Nat) (statusCode : Int) :
    List Nat × Int × Option String :=
  (body.take maxBodyBytes, statusCode, none)

/-- `checkError` (client.go:183-200): unmarshal the minimal `meta`
envelope from the body; on failure synthesize an `APIError` whose
`Code` duplicates the HTTP status and whose message interpolates the raw
body (`fmt.Sprintf("unparseable response body: %s", string(bodyBytes))`);
otherwise report an error exactly when the HTTP status is outside
[200,300) or `meta.code >= 400`, copying the meta fields and recording
the HTTP status. -/
def checkError (bodyBytes : Body) (statusCode : Int) : Option APIError :=
  match bodyBytes with
  | .unparseable raw =>
    some { HTTPStatusCode := statusCode, Code := statusCode,
           Message := "unparseable response body: " ++ raw, ServerTime := "" }
  | .envelope e =>
    if statusCode < 200 ∨ statusCode ≥ 300 ∨ e.meta.code ≥ 400 then
      some { HTTPStatusCode := statusCode, Code := e.meta.code,
             Message := e.meta.error, ServerTime := e.meta.server_time }
    else none

/-- The outcome of `do`/`doRaw`: success, the structured `*APIError`, or
a decode failure (`eero: decoding data payload` / `eero: decoding
response`). -/
inductive DoResult where
  | ok
  | apiError (e : APIError)
  | decodeError
deriving DecidableEq

/-- `doRaw` (client.go:227-245) after `performRequest` succeeded: run
`checkError`; then, when a target was supplied, unmarshal the whole body
into it.  The caller's target is `EeroResponse[T]`, so the unmarshal
succeeds exactly when the `data` value (if present) fits `T`; an absent
`data` key leaves the zero value. -/
def doRaw (bodyBytes : Body) (statusCode : Int) (v : Option JTarget) : DoResult :=
  match checkError bodyBytes statusCode with
  | some e => .apiError e
  | none =>
    match v with
    | none => .ok
    | some t =>
      match bodyBytes with
      | .unparseable _ => .decodeError
      | .envelope e =>
        match e.data with
        | none => .ok
        | some jv => if unmarshalOk jv t then .ok else .decodeError

/-- `do` (client.go:206-220): call `doRaw` with the internal `response`
envelope target (whose `Data` field is `json.RawMessage`, i.e. `tRaw`);
then, when a target was supplied and `len(envelope.Data) > 0` (the
`data` key was present), unmarshal the raw `data` value into it. -/
def do' (bodyBytes : Body) (statusCode : Int) (v : Option JTarget) : DoResult :=
  match doRaw bodyBytes statusCode (some .tRaw) with
  | .apiError e => .apiError e
  | .decodeError => .decodeError
  | .ok =>
    match v, bodyBytes with
    | some t, .envelope e =>
      match e.data with
      | none => .ok
      | some jv => if unmarshalOk jv t then .ok else .decodeError
    | _, _ => .ok

/-! ## Transport guard: redirect policy (client.go:83-94) -/

/-- The `CheckRedirect` closure installed by `NewClient`, as a function
of the next request's host and the hosts of the prior requests in the
chain (`via`): abort when the chain is non-empty and the target host
differs from the first request's host, abort after 10 redirects,
otherwise allow. -/
def checkRedirect (reqHost : String) (via : List String) : Option String :=
  if via ≠ [] ∧ reqHost ≠ via.headD "" then
    some ("security policy: blocked cross-domain redirect to " ++ reqHost)
  else if via.length ≥ 10 then
    some "stopped after 10 redirects"
  else none

/-! ## Cookie jar model (net/http/cookiejar) -/

/-- A cookie as the client sets it: name, value, and the `Secure`
attribute. -/
structure Cookie where
  name : String
  value : String
  secure : Bool
deriving DecidableEq, Repr

/-- Modelled from `net/http/cookiejar`: a host-keyed cookie store.
Domain/path matching is simplified to exact host equality, which is how
the client uses it (one API host). -/
structure Jar where
  entries : List (String × Cookie)

/-- Modelled from `cookiejar.Jar.SetCookies`: it does nothing when the
URL's scheme is neither `http` nor `https`; otherwise each given cookie
replaces any stored cookie of the same name for that host. -/
def Jar.setCookies (j : Jar) (scheme host : String) (cs : List Cookie) : Jar :=
  if scheme = "http" ∨ scheme = "https" then
    { entries :=
        j.entries.filter
          (fun p => !(p.1 == host && cs.any (fun c => c.name == p.2.name)))
        ++ cs.map (fun c => (host, c)) }
  else j

/-- Modelled from `cookiejar.Jar.Cookies`: return the cookies stored for
the URL's host, omitting `Secure` cookies unless the URL's scheme is
`https`. -/
def Jar.cookies (j : Jar) (scheme host : String) : List Cookie :=
  (j.entries.filter
    (fun p => p.1 == host && (!p.2.secure || scheme == "https"))).map (·.2)

/-! ## Client state (client.go:27-56) -/

/-- `DefaultBaseURL` from client.go. -/
def DefaultBaseURL : String := "https://api-user.e2ro.com/2.2"

/-- The client's mutable state relevant to the claims: the public
`BaseURL` field, the origin cache (`cachedOriginURL`,
`originURLSnapshot`, protected by `originMu` in Go; calls are modelled
sequentially, which is what the mutex guarantees), and the HTTP
client's cookie jar. -/
structure Client where
  BaseURL : String
  cachedOriginURL : Option URL
  originURLSnapshot : String
  jar : Jar

/-- `NewClient` (client.go:97-108): the default base URL, and the origin
cache pre-seeded from `url.Parse(DefaultBaseURL)` (scheme+host only)
with the snapshot set to `DefaultBaseURL`; the jar starts empty. -/
def NewClient : Client :=
  { BaseURL := DefaultBaseURL
  , cachedOriginURL :=
      match parseURL DefaultBaseURL with
      | some u => some ⟨u.scheme, u.host, ""⟩
      | none => none
  , originURLSnapshot :=
      match parseURL DefaultBaseURL with
      | some _ => DefaultBaseURL
      | none => ""
  , jar := ⟨[]⟩ }

/-- `originURL` (client.go:251-297): fast path returns the cached origin
when the cache is populated and `BaseURL` still equals the snapshot
(the Go code returns a defensive copy; values are immutable here, so the
copy and the cached value coincide); otherwise parse `BaseURL` —
surfacing a parse error as `none` — return a scheme- or host-less URL
as is without caching, and otherwise build the scheme+host origin,
store it with the new snapshot, and return it. -/
def originURL (c : Client) : Option URL × Client :=
  if c.cachedOriginURL.isSome ∧ c.BaseURL = c.originURLSnapshot then
    (c.cachedOriginURL, c)
  else
    match parseURL c.BaseURL with
    | none => (none, c)
    | some u =>
      if u.scheme = "" ∨ u.host = "" then (some u, c)
      else
        (some ⟨u.scheme, u.host, ""⟩,
         { c with cachedOriginURL := some ⟨u.scheme, u.host, ""⟩
                , originURLSnapshot := c.BaseURL })

/-- The origin-cache invariant: whenever the cache is populated and the
snapshot matches the current `BaseURL`, the cached value is the
scheme+host origin of a fresh parse of `BaseURL`, and that parse has a
non-empty scheme and host (only such URLs are ever cached). -/
def cacheInv (c : Client) : Prop :=
  ∀ o, c.cachedOriginURL = some o → c.originURLSnapshot = c.BaseURL →
    ∃ u, parseURL c.BaseURL = some u ∧ ¬u.scheme = "" ∧ ¬u.host = "" ∧
      o = ⟨u.scheme, u.host, ""⟩

/-- `SetSessionCookie` (client.go:123-136): parse `BaseURL` (an error
there is the only failure) and install the cookie `s` with the given
token and the `Secure` attribute into the jar for that URL. -/
def SetSessionCookie (c : Client) (userToken : String) : Option Client :=
  match parseURL c.BaseURL with
  | none => none
  | some u =>
    some { c with jar := c.jar.setCookies u.scheme u.host
                           [⟨"s", userToken, true⟩] }

/-- An outbound request as far as the claims inspect it: method and
target URL (`buildRequest` additionally sets headers and the JSON body,
which no claim examines). -/
structure Request where
  method : String
  url : URL
deriving DecidableEq

/-- `newRequestFromURL` (client.go:303-323): take the origin, parse the
caller-supplied URL reference, resolve it against the origin, and fail
closed when the resolved host differs from the origin host; otherwise
build the request for the resolved URL. -/
def newRequestFromURL (c : Client) (method relativeURL : String) :
    Option Request × Client :=
  match (originURL c).1 with
  | none => (none, (originURL c).2)
  | some base =>
    match parseURL relativeURL with
    | none => (none, (originURL c).2)
    | some rel =>
      let u := resolveReference base rel
      if u.host ≠ base.host then (none, (originURL c).2)
      else (some ⟨method, u⟩, (originURL c).2)

/-! ## Helper lemmas -/

/-- JSON `null` unmarshals into every target without error. -/
theorem unmarshalOk_null (t : JTarget) : unmarshalOk .null t = true := by
  cases t <;> rfl

/-- `json.RawMessage` accepts every JSON value. -/
theorem unmarshalOk_tRaw (jv : JValue) : unmarshalOk jv .tRaw = true := by
  cases jv <;> rfl

/-- A client whose origin cache is empty satisfies the cache invariant. -/
theorem cacheInv_of_cache_none {c : Client} (h : c.cachedOriginURL = none) :
    cacheInv c := by
  intro o ho
  rw [h] at ho
  exact Option.noConfusion ho

/-- Fast path of `originURL`: populated cache and matching snapshot. -/
theorem originURL_fast {c : Client} (h1 : c.cachedOriginURL.isSome)
    (h2 : c.BaseURL = c.originURLSnapshot) :
    originURL c = (c.cachedOriginURL, c) := by
  unfold originURL
  rw [if_pos ⟨h1, h2⟩]

/-- Slow path of `originURL` on a base URL that fails to parse. -/
theorem originURL_slow_parse_fail {c : Client}
    (h : ¬(c.cachedOriginURL.isSome ∧ c.BaseURL = c.originURLSnapshot))
    (hp : parseURL c.BaseURL = none) :
    originURL c = (none, c) := by
  unfold originURL
  rw [if_neg h, hp]

/-- Slow path of `originURL` on a base URL that parses without a scheme
or host: the parsed URL is returned as is and the cache is untouched. -/
theorem originURL_slow_degenerate {c : Client} {u : URL}
    (h : ¬(c.cachedOriginURL.isSome ∧ c.BaseURL = c.originURLSnapshot))
    (hp : parseURL c.BaseURL = some u) (hd : u.scheme = "" ∨ u.host = "") :
    originURL c = (some u, c) := by
  unfold originURL
  rw [if_neg h, hp]
  exact if_pos hd

/-- Slow path of `originURL` on a base URL with scheme and host: the
scheme+host origin is returned and cached with the new snapshot. -/
theorem originURL_slow_origin {c : Client} {u : URL}
    (h : ¬(c.cachedOriginURL.isSome ∧ c.BaseURL = c.originURLSnapshot))
    (hp : parseURL c.BaseURL = some u) (hs : ¬u.scheme = "") (hh : ¬u.host = "") :
    originURL c = (some ⟨u.scheme, u.host, ""⟩,
      { c with cachedOriginURL := some ⟨u.scheme, u.host, ""⟩
             , originURLSnapshot := c.BaseURL }) := by
  unfold originURL
  rw [if_neg h, hp]
  exact if_neg (fun hd => hd.elim hs hh)

/-- `originURL` never changes the `BaseURL` field. -/
theorem originURL_BaseURL (c : Client) : (originURL c).2.BaseURL = c.BaseURL := by
  unfold originURL
  split
  · rfl
  · split
    · rfl
    · split <;> rfl

/-- `originURL` preserves the origin-cache invariant. -/
theorem originURL_preserves_cacheInv {c : Client} (hinv : cacheInv c) :
    cacheInv (originURL c).2 := by
  by_cases hfast : c.cachedOriginURL.isSome ∧ c.BaseURL = c.originURLSnapshot
  · rw [originURL_fast hfast.1 hfast.2]
    exact hinv
  · cases hp : parseURL c.BaseURL with
    | none =>
      rw [originURL_slow_parse_fail hfast hp]
      exact hinv
    | some u =>
      by_cases hd : u.scheme = "" ∨ u.host = ""
      · rw [originURL_slow_degenerate hfast hp hd]
        exact hinv
      · push_neg at hd
        rw [originURL_slow_origin hfast hp hd.1 hd.2]
        intro o ho _
        exact ⟨u, hp, hd.1, hd.2, (Option.some.inj ho).symm⟩

/-- Under the cache invariant, `originURL` of a base URL that parses
with a scheme and host returns exactly the scheme+host origin. -/
theorem originURL_result {c : Client} {u : URL} (hinv : cacheInv c)
    (hp : parseURL c.BaseURL = some u) (hs : ¬u.scheme = "") (hh : ¬u.host = "") :
    (originURL c).1 = some ⟨u.scheme, u.host, ""⟩ := by
  by_cases hfast : c.cachedOriginURL.isSome ∧ c.BaseURL = c.originURLSnapshot
  · rw [originURL_fast hfast.1 hfast.2]
    obtain ⟨o, ho⟩ := Option.isSome_iff_exists.mp hfast.1
    obtain ⟨u', hu', _, _, ho'⟩ := hinv o ho hfast.2.symm
    rw [hp] at hu'
    cases Option.some.inj hu'
    rw [ho, ho']
  · cases hd : decide (u.scheme = "" ∨ u.host = "") with
    | true =>
      exact absurd (of_decide_eq_true hd) (fun hd' => hd'.elim hs hh)
    | false =>
      have hd' := of_decide_eq_false hd
      push_neg at hd'
      rw [originURL_slow_origin hfast hp hd'.1 hd'.2]

/-! ## Claim theorems -/

/-- C1: the claim that `checkError`'s unparseable-body error reports
only the byte length of the body and contains no substring of it is
violated by the code: at HTTP status 500 with the non-JSON body
`"secret"`, the synthesized error message interpolates the raw body, and
the equal-length body `"public"` at the same status yields a different
message. -/
theorem checkError_unparseable_leaks_body :
    checkError (.unparseable "secret") 500 =
      some ⟨500, 500, "unparseable response body: secret", ""⟩
    ∧ "secret".length = "public".length
    ∧ checkError (.unparseable "secret") 500 ≠ checkError (.unparseable "public") 500 := by
  refine ⟨rfl, rfl, ?_⟩
  decide

/-- C2: for a body that parses as the envelope, `checkError` reports no
error exactly when the HTTP status is in [200,300) and the meta code is
below 400; a reported error copies the HTTP status into
`HTTPStatusCode` and the parsed meta fields into `Code`, `Message` and
`ServerTime` verbatim, and `doRaw`/`do` surface exactly that error. -/
theorem checkError_envelope_classification (e : Envelope) (s : Int) :
    (checkError (.envelope e) s = none ↔ 200 ≤ s ∧ s < 300 ∧ e.meta.code < 400)
    ∧ (∀ err, checkError (.envelope e) s = some err →
        err.HTTPStatusCode = s ∧ err.Code = e.meta.code ∧
        err.Message = e.meta.error ∧ err.ServerTime = e.meta.server_time)
    ∧ (∀ v err, checkError (.envelope e) s = some err →
        doRaw (.envelope e) s v = .apiError err ∧
        do' (.envelope e) s v = .apiError err) := by
  refine ⟨?_, ?_, ?_⟩
  · constructor
    · simp only [checkError]
      split
      · intro hsome
        exact absurd hsome (by simp)
      · next hcond =>
        intro _
        omega
    · intro hr
      simp only [checkError]
      rw [if_neg (by omega)]
  · intro err
    simp only [checkError]
    split
    · intro he
      cases Option.some.inj he
      exact ⟨rfl, rfl, rfl, rfl⟩
    · intro he
      exact Option.noConfusion he
  · intro v err he
    have hdr : ∀ v', doRaw (.envelope e) s v' = .apiError err := by
      intro v'
      simp only [doRaw, he]
    refine ⟨hdr v, ?_⟩
    simp only [do', hdr (some .tRaw)]

/-- C4: `performRequest` returns at most `maxBodyBytes` bytes of body —
exactly `min` of the body length and the 5 MiB cap, so an over-long body
is truncated to exactly the cap — and the size never causes an error by
itself. -/
theorem performRequest_body_capped (body : List Nat) (s : Int) :
    (performRequest body s).1.length = min maxBodyBytes body.length
    ∧ (performRequest body s).1.length ≤ maxBodyBytes
    ∧ (maxBodyBytes ≤ body.length →
        (performRequest body s).1.length = maxBodyBytes)
    ∧ (performRequest body s).2.2 = none := by
  refine ⟨List.length_take _ _, ?_, ?_, rfl⟩
  · rw [performRequest, List.length_take]
    exact min_le_left _ _
  · intro h
    rw [performRequest, List.length_take]
    omega

/-- C9: the redirect policy of `NewClient` rejects a redirect exactly
when its target host differs from the host of the first request in the
chain or the chain already holds 10 or more requests, and allows it
exactly when the host matches and fewer than 10 redirects happened. -/
theorem checkRedirect_policy (reqHost h : String) (t : List String) :
    ((checkRedirect reqHost (h :: t)).isSome ↔
      reqHost ≠ h ∨ 10 ≤ (h :: t).length)
    ∧ (checkRedirect reqHost (h :: t) = none ↔
      reqHost = h ∧ (h :: t).length < 10) := by
  unfold checkRedirect
  by_cases hh : reqHost = h
  · rw [if_neg (fun hc => hc.2 (by simpa using hh))]
    by_cases hl : (h :: t).length ≥ 10
    · rw [if_pos hl]
      refine ⟨⟨fun _ => Or.inr hl, fun _ => rfl⟩, ?_⟩
      constructor
      · intro hc
        exact absurd hc (by simp)
      · intro hc
        exact absurd hl (by omega)
    · rw [if_neg hl]
      refine ⟨⟨fun hc => absurd hc (by simp), fun hc => ?_⟩, ?_⟩
      · rcases hc with hc | hc
        · exact absurd hh hc
        · exact absurd hc hl
      · exact ⟨fun _ => ⟨hh, by omega⟩, fun _ => rfl⟩
  · rw [if_pos ⟨by simp, by simpa using hh⟩]
    refine ⟨⟨fun _ => Or.inl hh, fun _ => rfl⟩, ?_⟩
    constructor
    · intro hc
      exact absurd hc (by simp)
    · intro hc
      exact absurd hc.1 hh

/-- C10: a body that is valid JSON without a `meta` object (such as
`{}`) decodes to the zero-value meta (`code = 0`, empty message), so
`checkError` is silent on a 2xx status and otherwise reports the HTTP
status with application code 0 and an empty message. -/
theorem checkError_missing_meta_zero_values (s : Int) :
    checkError (.envelope ⟨⟨0, "", ""⟩, none⟩) s =
      if s < 200 ∨ 300 ≤ s then some ⟨s, 0, "", ""⟩ else none := by
  simp only [checkError]
  split_ifs with h1 h2 <;> first | rfl | omega

/-- C5: on a base URL that parses with a non-empty scheme and host,
`originURL` returns the scheme+host origin with an empty path, whatever
path the base URL carries, and invoking it again while `BaseURL` is
unchanged (the call never modifies that field) returns an equal value. -/
theorem originURL_origin_of_valid_base (c : Client) (u : URL)
    (hinv : cacheInv c) (hp : parseURL c.BaseURL = some u)
    (hs : u.scheme ≠ "") (hh : u.host ≠ "") :
    (originURL c).1 = some ⟨u.scheme, u.host, ""⟩
    ∧ (originURL (originURL c).2).1 = (originURL c).1 := by
  have h1 := originURL_result hinv hp hs hh
  have hinv2 := originURL_preserves_cacheInv hinv
  have hp2 : parseURL (originURL c).2.BaseURL = some u := by
    rw [originURL_BaseURL]
    exact hp
  have h2 := originURL_result hinv2 hp2 hs hh
  exact ⟨h1, by rw [h1, h2]⟩

/-- Witness for C5: a client with base URL `"https://example.com/api/v1"`
and an empty origin cache. -/
theorem originURL_origin_of_valid_base_witness :
    (originURL ⟨"https://example.com/api/v1", none, "", ⟨[]⟩⟩).1 =
      some ⟨"https", "example.com", ""⟩
    ∧ (originURL (originURL ⟨"https://example.com/api/v1", none, "", ⟨[]⟩⟩).2).1 =
      (originURL ⟨"https://example.com/api/v1", none, "", ⟨[]⟩⟩).1 :=
  originURL_origin_of_valid_base _ ⟨"https", "example.com", "/api/v1"⟩
    (cacheInv_of_cache_none rfl) (by decide) (by decide) (by decide)

/-- C6: the origin-cache invariant — a populated cache whose snapshot
matches the current `BaseURL` holds exactly the scheme+host origin of a
fresh parse of that `BaseURL` — is established by `NewClient` and
preserved by every `originURL` call; and a base URL that parses but
lacks a scheme or host is returned to the caller unmodified with the
client state (cache included) untouched. -/
theorem originURL_cache_invariant :
    cacheInv NewClient
    ∧ (∀ c, cacheInv c → cacheInv (originURL c).2)
    ∧ (∀ c u, cacheInv c → parseURL c.BaseURL = some u →
        u.scheme = "" ∨ u.host = "" → originURL c = (some u, c)) := by
  refine ⟨?_, fun c hinv => originURL_preserves_cacheInv hinv, ?_⟩
  · intro o ho _
    have hc : NewClient.cachedOriginURL = some ⟨"https", "api-user.e2ro.com", ""⟩ := by
      decide
    rw [hc] at ho
    exact ⟨⟨"https", "api-user.e2ro.com", "/2.2"⟩, by decide, by decide, by decide,
      (Option.some.inj ho).symm⟩
  · intro c u hinv hp hd
    by_cases hfast : c.cachedOriginURL.isSome ∧ c.BaseURL = c.originURLSnapshot
    · exfalso
      obtain ⟨o, ho⟩ := Option.isSome_iff_exists.mp hfast.1
      obtain ⟨u', hu', hs', hh', _⟩ := hinv o ho hfast.2.symm
      rw [hp] at hu'
      cases Option.some.inj hu'
      exact hd.elim hs' hh'
    · exact originURL_slow_degenerate hfast hp hd

/-- C3: `newRequestFromURL` fails closed whenever resolving the
caller-supplied URL reference against the origin yields a host different
from the origin's host, and any request it does return targets exactly
the origin's host. -/
theorem newRequestFromURL_same_host (c : Client) (m rel : String) :
    (∀ base r, (originURL c).1 = some base → parseURL rel = some r →
        (resolveReference base r).host ≠ base.host →
        (newRequestFromURL c m rel).1 = none)
    ∧ (∀ req base, (newRequestFromURL c m rel).1 = some req →
        (originURL c).1 = some base → req.url.host = base.host) := by
  constructor
  · intro base r hb hr hhost
    simp only [newRequestFromURL, hb, hr]
    rw [if_pos hhost]
  · intro req base hreq hb
    simp only [newRequestFromURL, hb] at hreq
    cases hr : parseURL rel with
    | none =>
      simp only [hr] at hreq
      exact Option.noConfusion hreq
    | some r =>
      simp only [hr] at hreq
      by_cases hhost : (resolveReference base r).host ≠ base.host
      · rw [if_pos hhost] at hreq
        exact Option.noConfusion hreq
      · rw [if_neg hhost] at hreq
        cases Option.some.inj hreq
        exact not_not.mp hhost

/-- C7: on a success response (HTTP status in [200,300), meta code
< 400), both decode paths tolerate an absent, `null`, empty-object or
empty-array `data` without error, and fail with a decode error exactly
when a present `data` value does not fit the target's shape. -/
theorem do_doRaw_data_tolerance (m : Meta) (s : Int) (t : JTarget)
    (h1 : 200 ≤ s) (h2 : s < 300) (h3 : m.code < 400) :
    do' (.envelope ⟨m, none⟩) s (some t) = .ok
    ∧ do' (.envelope ⟨m, some .null⟩) s (some t) = .ok
    ∧ do' (.envelope ⟨m, some (.obj [])⟩) s (some .tStruct) = .ok
    ∧ do' (.envelope ⟨m, some (.arr [])⟩) s (some .tSlice) = .ok
    ∧ (∀ jv, unmarshalOk jv t = false →
        do' (.envelope ⟨m, some jv⟩) s (some t) = .decodeError)
    ∧ doRaw (.envelope ⟨m, none⟩) s (some t) = .ok
    ∧ doRaw (.envelope ⟨m, some .null⟩) s (some t) = .ok
    ∧ doRaw (.envelope ⟨m, some (.obj [])⟩) s (some .tStruct) = .ok
    ∧ doRaw (.envelope ⟨m, some (.arr [])⟩) s (some .tSlice) = .ok
    ∧ (∀ jv, unmarshalOk jv t = false →
        doRaw (.envelope ⟨m, some jv⟩) s (some t) = .decodeError) := by
  have hck : ∀ d, checkError (.envelope ⟨m, d⟩) s = none := by
    intro d
    simp only [checkError]
    rw [if_neg (show ¬(s < 200 ∨ s ≥ 300 ∨ m.code ≥ 400) by omega)]
  have hraw : ∀ d, doRaw (.envelope ⟨m, d⟩) s (some .tRaw) = .ok := by
    intro d
    cases d with
    | none => simp [doRaw, hck]
    | some jv => simp [doRaw, hck, unmarshalOk_tRaw]
  refine ⟨?_, ?_, ?_, ?_, ?_, ?_, ?_, ?_, ?_, ?_⟩
  · simp [do', hraw]
  · simp [do', hraw, unmarshalOk_null]
  · simp [do', hraw, unmarshalOk]
  · simp [do', hraw, unmarshalOk]
  · intro jv hjv
    simp [do', hraw, hjv]
  · simp [doRaw, hck]
  · simp [doRaw, hck, unmarshalOk_null]
  · simp [doRaw, hck, unmarshalOk]
  · simp [doRaw, hck, unmarshalOk]
  · intro jv hjv
    simp [doRaw, hck, hjv]

/-- Witness for C7: status 200 with `meta.code = 200` and a struct
target. -/
theorem do_doRaw_data_tolerance_witness :
    do' (.envelope ⟨⟨200, "", ""⟩, none⟩) 200 (some .tStruct) = .ok
    ∧ do' (.envelope ⟨⟨200, "", ""⟩, some .null⟩) 200 (some .tStruct) = .ok
    ∧ do' (.envelope ⟨⟨200, "", ""⟩, some (.obj [])⟩) 200 (some .tStruct) = .ok
    ∧ do' (.envelope ⟨⟨200, "", ""⟩, some (.arr [])⟩) 200 (some .tSlice) = .ok
    ∧ (∀ jv, unmarshalOk jv .tStruct = false →
        do' (.envelope ⟨⟨200, "", ""⟩, some jv⟩) 200 (some .tStruct) = .decodeError)
    ∧ doRaw (.envelope ⟨⟨200, "", ""⟩, none⟩) 200 (some .tStruct) = .ok
    ∧ doRaw (.envelope ⟨⟨200, "", ""⟩, some .null⟩) 200 (some .tStruct) = .ok
    ∧ doRaw (.envelope ⟨⟨200, "", ""⟩, some (.obj [])⟩) 200 (some .tStruct) = .ok
    ∧ doRaw (.envelope ⟨⟨200, "", ""⟩, some (.arr [])⟩) 200 (some .tSlice) = .ok
    ∧ (∀ jv, unmarshalOk jv .tStruct = false →
        doRaw (.envelope ⟨⟨200, "", ""⟩, some jv⟩) 200 (some .tStruct) = .decodeError) :=
  do_doRaw_data_tolerance ⟨200, "", ""⟩ 200 .tStruct (by decide) (by decide) (by decide)

/-- After `setCookies` on an HTTPS URL replaces the `s` cookie of a
host, the HTTPS query for that host yields exactly the new `s` cookie. -/
theorem jar_set_s_https (l : List (String × Cookie)) (host tok : String) :
    ((Jar.setCookies ⟨l⟩ "https" host [⟨"s", tok, true⟩]).cookies "https" host).filter
      (fun k => k.name == "s") = [⟨"s", tok, true⟩] := by
  simp only [Jar.setCookies, Jar.cookies]
  rw [if_pos (Or.inr trivial)]
  induction l with
  | nil => simp
  | cons p l ih =>
    by_cases hph : p.1 = host <;> by_cases hn : p.2.name = "s"
    · simp [hph, hn]; simpa [hph, hn] using ih
    · simp [hph, hn]
      intro a x _ hx h3
      rcases h3 with h3 | h3
      · exact absurd hx h3
      · intro hna
        exact h3 hna.symm
    · simp [hph, hn]; simpa [hph, hn] using ih
    · simp [hph, hn]; simpa [hph, hn] using ih

/-- The same `setCookies` call leaves nothing named `s` visible to the
plain-HTTP variant of the host: the new cookie is Secure and the old
`s` cookies of that host were replaced. -/
theorem jar_set_s_http (l : List (String × Cookie)) (host tok : String) :
    ((Jar.setCookies ⟨l⟩ "https" host [⟨"s", tok, true⟩]).cookies "http" host).filter
      (fun k => k.name == "s") = [] := by
  simp only [Jar.setCookies, Jar.cookies]
  rw [if_pos (Or.inr trivial)]
  induction l with
  | nil => simp
  | cons p l ih =>
    by_cases hph : p.1 = host <;> by_cases hn : p.2.name = "s"
    · simp [hph, hn]; simpa [hph, hn] using ih
    · simp [hph, hn]
      intro a x _ hx _ h3
      rcases h3 with h3 | h3
      · exact absurd hx h3
      · intro hna
        exact h3 hna.symm
    · simp [hph, hn]; simpa [hph, hn] using ih
    · simp [hph, hn]; simpa [hph, hn] using ih

/-- C8: `SetSessionCookie` fails exactly when the base URL does not
parse — never because of the token value — and on an HTTPS base URL it
leaves exactly one cookie named `s` carrying the token for the HTTPS
origin, while the plain-HTTP variant of that origin sees no such cookie
(the cookie is installed with the Secure attribute). -/
theorem setSessionCookie_roundtrip (c : Client) (token : String) (u : URL)
    (hp : parseURL c.BaseURL = some u) (hscheme : u.scheme = "https") :
    (∀ c₀ : Client, ∀ tok : String,
        (SetSessionCookie c₀ tok).isSome ↔ (parseURL c₀.BaseURL).isSome)
    ∧ (∀ c', SetSessionCookie c token = some c' →
        (c'.jar.cookies "https" u.host).filter (fun k => k.name == "s")
          = [⟨"s", token, true⟩]
        ∧ (c'.jar.cookies "http" u.host).filter (fun k => k.name == "s") = []) := by
  constructor
  · intro c₀ tok
    cases hp0 : parseURL c₀.BaseURL <;> simp [SetSessionCookie, hp0]
  · intro c' hc'
    simp only [SetSessionCookie, hp] at hc'
    cases Option.some.inj hc'
    rw [hscheme]
    exact ⟨jar_set_s_https c.jar.entries u.host token,
           jar_set_s_http c.jar.entries u.host token⟩

/-- Witness for C8: the fresh `NewClient` (HTTPS default base URL) and
the token `"abc123"`. -/
theorem setSessionCookie_roundtrip_witness :
    (∀ c₀ : Client, ∀ tok : String,
        (SetSessionCookie c₀ tok).isSome ↔ (parseURL c₀.BaseURL).isSome)
    ∧ (∀ c', SetSessionCookie NewClient "abc123" = some c' →
        (c'.jar.cookies "https" "api-user.e2ro.com").filter (fun k => k.name == "s")
          = [⟨"s", "abc123", true⟩]
        ∧ (c'.jar.cookies "http" "api-user.e2ro.com").filter
            (fun k => k.name == "s") = []) :=
  setSessionCookie_roundtrip NewClient "abc123"
    ⟨"https", "api-user.e2ro.com", "/2.2"⟩ (by decide) rfl

end EeroGo
